import Mathlib

/-!
Verification of the forge workflow engine.

The development embeds the Go sources `internal/dsl/validation.go` and
`internal/runner/runner.go`: the workflow data model, the validation
rules, and the execution/simulation engine (`Run` / `DryRun`) driven by
injected capabilities (workflow loader, command runner, delay function,
output sink).  Side effects are modelled as an ordered list of `Event`s:
writes to the sink, command invocations, and delay invocations.
-/

/-- Step type tag for command-execution steps (`dsl.StepTypeExec`).
Step types are plain strings in the source. -/
def StepTypeExec : String := "exec"

/-- Step type tag for delay steps (`dsl.StepTypeSleep`). -/
def StepTypeSleep : String := "sleep"

/-- A single workflow step (`dsl.Step`).  The Go struct carries the
fields of every variant; the `Type` tag selects which are meaningful. -/
structure Step where
  name : String
  type : String
  run : List String := []
  seconds : Int := 0
deriving Repr, DecidableEq

/-- A named ordered group of steps (`dsl.Stage`). -/
structure Stage where
  name : String
  steps : List Step
deriving Repr, DecidableEq

/-- The top-level pipeline (`dsl.Workflow`). -/
structure Workflow where
  name : String
  description : String := ""
  stages : List Stage
deriving Repr, DecidableEq

/-- `Step.Validate` from `validation.go`: name present, then a switch on
the type tag checking the variant-specific rule. -/
def Step.Validate (s : Step) : Except String Unit :=
  if s.name = "" then Except.error "step name is required"
  else if s.type = StepTypeExec then
    if s.run.length = 0 then Except.error "exec step requires \x27run\x27 command"
    else Except.ok ()
  else if s.type = StepTypeSleep then
    if s.seconds ≤ 0 then Except.error "sleep step requires positive \x27seconds\x27 value"
    else Except.ok ()
  else Except.error ("unknown step type: " ++ s.type)

/-- The indexed loop inside `Stage.Validate`: validate each step in
order, wrapping the first failure with the 0-based index and name. -/
def validateSteps : List Step → Nat → Except String Unit
  | [], _ => Except.ok ()
  | s :: rest, i =>
    match s.Validate with
    | Except.error e =>
        Except.error ("step " ++ toString i ++ " (" ++ s.name ++ "): " ++ e)
    | Except.ok _ => validateSteps rest (i + 1)

/-- `Stage.Validate` from `validation.go`. -/
def Stage.Validate (s : Stage) : Except String Unit :=
  if s.name = "" then Except.error "stage name is required"
  else if s.steps.length = 0 then Except.error "stage must have at least one step"
  else validateSteps s.steps 0

/-- The indexed loop inside `Workflow.Validate`: validate each stage in
order, wrapping the first failure with the 0-based index and name. -/
def validateStages : List Stage → Nat → Except String Unit
  | [], _ => Except.ok ()
  | st :: rest, i =>
    match st.Validate with
    | Except.error e =>
        Except.error ("stage " ++ toString i ++ " (" ++ st.name ++ "): " ++ e)
    | Except.ok _ => validateStages rest (i + 1)

/-- `Workflow.Validate` from `validation.go`. -/
def Workflow.Validate (w : Workflow) : Except String Unit :=
  if w.name = "" then Except.error "workflow name is required"
  else if w.stages.length = 0 then Except.error "workflow must have at least one stage"
  else validateStages w.stages 0

/-- An observable effect of the engine: a line written to the output
sink, a CommandRunner invocation, or a DelayFn invocation (duration in
nanoseconds, Go's `time.Duration` unit). -/
inductive Event where
  | out (line : String)
  | cmd (argv : List String)
  | delay (d : Int)
deriving Repr, DecidableEq

/-- Go's `time.Second` expressed in `time.Duration` units (nanoseconds). -/
def goSecond : Int := 1000000000

/-- The runner's injected collaborators (`runner.runner` fields): the
workflow source path, the loader, and the command-execution capability.
The delay capability and the sink are pure in this model, so they are
represented directly by the emitted `Event`s. -/
structure RunnerCfg where
  path : String
  LoadWorkflow : String → Except String Workflow
  RunCmd : List String → Except String Unit

/-- `Runner.executeStep` from `runner.go`: the event list it emits and
its result. -/
def executeStep (r : RunnerCfg) (step : Step) : List Event × Except String Unit :=
  if step.type = StepTypeExec then
    match r.RunCmd step.run with
    | Except.error e =>
        ([Event.cmd step.run], Except.error ("command execution failed: " ++ e))
    | Except.ok _ => ([Event.cmd step.run], Except.ok ())
  else if step.type = StepTypeSleep then
    ([Event.out ("  Sleeping for " ++ toString step.seconds ++ " seconds...\n"),
      Event.delay (step.seconds * goSecond)], Except.ok ())
  else
    ([], Except.error ("unknown step type: " ++ step.type))

/-- The inner step loop of `Runner.Run`: emit the step marker, execute
the step, and on failure wrap the error with the owning stage and step
names and stop. -/
def runSteps (r : RunnerCfg) (stageIdx : Nat) (stageName : String) :
    List Step → Nat → List Event × Except String Unit
  | [], _ => ([], Except.ok ())
  | step :: rest, stepIdx =>
    let marker := Event.out ("STEP " ++ toString (stageIdx + 1) ++ "." ++
      toString (stepIdx + 1) ++ ": " ++ step.name ++ " (" ++ step.type ++ ")\n")
    match executeStep r step with
    | (evs, Except.error e) =>
        (marker :: evs,
          Except.error ("stage \x27" ++ stageName ++ "\x27, step \x27" ++
            step.name ++ "\x27: " ++ e))
    | (evs, Except.ok _) =>
        let next := runSteps r stageIdx stageName rest (stepIdx + 1)
        (marker :: evs ++ next.1, next.2)

/-- The outer stage loop of `Runner.Run`: emit the stage marker, run the
stage's steps, and on success emit the stage-completed marker and
continue. -/
def runStages (r : RunnerCfg) : List Stage → Nat → List Event × Except String Unit
  | [], _ => ([], Except.ok ())
  | stage :: rest, stageIdx =>
    let marker := Event.out ("\n=== STAGE " ++ toString (stageIdx + 1) ++ ": " ++
      stage.name ++ " ===\n")
    match runSteps r stageIdx stage.name stage.steps 0 with
    | (evs, Except.error e) => (marker :: evs, Except.error e)
    | (evs, Except.ok _) =>
        let done := Event.out ("=== STAGE " ++ toString (stageIdx + 1) ++ " COMPLETED ===\n")
        let next := runStages r rest (stageIdx + 1)
        (marker :: evs ++ done :: next.1, next.2)

/-- `Runner.Run` from `runner.go`: start marker, load, traverse all
stages, completion marker on success. -/
def RunnerCfg.Run (r : RunnerCfg) : List Event × Except String Unit :=
  let start := Event.out ("Executing workflow: " ++ r.path ++ "\n")
  match r.LoadWorkflow r.path with
  | Except.error e => ([start], Except.error e)
  | Except.ok wf =>
    match runStages r wf.stages 0 with
    | (evs, Except.error e) => (start :: evs, Except.error e)
    | (evs, Except.ok _) =>
        (start :: evs ++ [Event.out "\n✓ Workflow execution completed.\n"], Except.ok ())

/-- Go's `%v` rendering of a `[]string`, used by `DryRun`. -/
def goSliceFmt (xs : List String) : String :=
  "[" ++ String.intercalate " " xs ++ "]"

/-- The per-step simulation lines of `Runner.DryRun`: the switch has
cases only for exec and sleep, with no default branch. -/
def dryStep (step : Step) : List Event :=
  if step.type = StepTypeExec then
    [Event.out ("[DRY-RUN]   Would execute command: " ++ goSliceFmt step.run ++ "\n")]
  else if step.type = StepTypeSleep then
    [Event.out ("[DRY-RUN]   Would sleep for " ++ toString step.seconds ++ " seconds\n")]
  else []

/-- The inner step loop of `Runner.DryRun`. -/
def drySteps (stageIdx : Nat) : List Step → Nat → List Event
  | [], _ => []
  | step :: rest, stepIdx =>
    Event.out ("[DRY-RUN] STEP " ++ toString (stageIdx + 1) ++ "." ++
        toString (stepIdx + 1) ++ ": " ++ step.name ++ " (" ++ step.type ++ ")\n") ::
      (dryStep step ++ drySteps stageIdx rest (stepIdx + 1))

/-- The outer stage loop of `Runner.DryRun`. -/
def dryStages : List Stage → Nat → List Event
  | [], _ => []
  | stage :: rest, stageIdx =>
    Event.out ("\n[DRY-RUN] === STAGE " ++ toString (stageIdx + 1) ++ ": " ++
        stage.name ++ " ===\n") ::
      (drySteps stageIdx stage.steps 0 ++
        (Event.out ("[DRY-RUN] === STAGE " ++ toString (stageIdx + 1) ++ " COMPLETED ===\n") ::
          dryStages rest (stageIdx + 1)))

/-- `Runner.DryRun` from `runner.go`: identical traversal to `Run`, never
invoking the command or delay capabilities, and never failing after a
successful load. -/
def RunnerCfg.DryRun (r : RunnerCfg) : List Event × Except String Unit :=
  let start := Event.out ("[DRY-RUN] Would execute workflow: " ++ r.path ++ "\n")
  match r.LoadWorkflow r.path with
  | Except.error e => ([start], Except.error e)
  | Except.ok wf =>
    (start :: dryStages wf.stages 0 ++
        [Event.out "\n[DRY-RUN] ✓ Workflow simulation completed.\n"],
      Except.ok ())

/-- Discriminates capability events (CommandRunner / DelayFn
invocations) from sink writes. -/
def Event.isCap : Event → Bool
  | Event.cmd _ => true
  | Event.delay _ => true
  | Event.out _ => false

/-- The subsequence of capability invocations in an event trace. -/
def capCalls (evs : List Event) : List Event := evs.filter Event.isCap

/-- The lines written to the sink in an event trace. -/
def outLines (evs : List Event) : List String :=
  evs.filterMap (fun e => match e with
    | Event.out s => some s
    | _ => none)

/-- The capability invocation a step should produce: its argv for an
exec step, its seconds converted to a duration for a sleep step. -/
def stepCall (s : Step) : Option Event :=
  if s.type = StepTypeExec then some (Event.cmd s.run)
  else if s.type = StepTypeSleep then some (Event.delay (s.seconds * goSecond))
  else none

/-- The expected capability invocations for a step list, in declared
order. -/
def stepCalls (steps : List Step) : List Event := steps.filterMap stepCall

/-- All steps of a workflow, stage-major then step-minor. -/
def wfSteps (wf : Workflow) : List Step := wf.stages.flatMap Stage.steps

/-- Total number of steps in a workflow. -/
def totalSteps (wf : Workflow) : Nat := (wfSteps wf).length

/-- A step whose capability invocation succeeds under the given runner:
an exec step whose command succeeds, or a sleep step. -/
def StepOk (r : RunnerCfg) (s : Step) : Prop :=
  (s.type = StepTypeExec ∧ r.RunCmd s.run = Except.ok ()) ∨ s.type = StepTypeSleep

/-- The spec's step invariants (rules 4-7 of the data-model section),
stated from the spec's words, independently of `Step.Validate`. -/
def specStepInvariant (s : Step) : Bool :=
  s.name != "" &&
    ((s.type == StepTypeExec && !s.run.isEmpty) ||
     (s.type == StepTypeSleep && decide (0 < s.seconds)))

/-- The spec's stage invariants (rule 3 plus the step rules). -/
def specStageInvariant (st : Stage) : Bool :=
  st.name != "" && !st.steps.isEmpty && st.steps.all specStepInvariant

/-- The spec's workflow invariants (rules 1-7). -/
def specWorkflowInvariants (w : Workflow) : Bool :=
  w.name != "" && !w.stages.isEmpty && w.stages.all specStageInvariant

/-- The eight root causes of the spec's ValidationError taxonomy. -/
def baseCause (e : String) : Prop :=
  e = "workflow name is required" ∨
  e = "workflow must have at least one stage" ∨
  e = "stage name is required" ∨
  e = "stage must have at least one step" ∨
  e = "step name is required" ∨
  e = "exec step requires \x27run\x27 command" ∨
  e = "sleep step requires positive \x27seconds\x27 value" ∨
  ∃ t, e = "unknown step type: " ++ t

/-- A validation error message whose root cause is one of the eight
causes, possibly wrapped in location context. -/
def knownCause (e : String) : Prop :=
  ∃ c p, baseCause c ∧ e = p ++ c

/-- Does a sink line begin with the dry-run step-marker text? -/
def isDryStepMarker (l : String) : Bool :=
  l.data.take 15 == ("[DRY-RUN] STEP ").data

/-- Number of dry-run step-marker lines in a trace. -/
def dryStepMarkerCount (evs : List Event) : Nat :=
  ((outLines evs).filter isDryStepMarker).length

/-- The step markers `Run` emits for a step list. -/
def stepMarkers (stageIdx : Nat) : List Step → Nat → List String
  | [], _ => []
  | s :: rest, j =>
    ("STEP " ++ toString (stageIdx + 1) ++ "." ++ toString (j + 1) ++ ": " ++
      s.name ++ " (" ++ s.type ++ ")\n") :: stepMarkers stageIdx rest (j + 1)

/-- The stage-start markers with their step markers, in declared order. -/
def stageMarkers : List Stage → Nat → List String
  | [], _ => []
  | st :: rest, i =>
    ("\n=== STAGE " ++ toString (i + 1) ++ ": " ++ st.name ++ " ===\n") ::
      (stepMarkers i st.steps 0 ++ stageMarkers rest (i + 1))

/-- The trace skeleton a successful `Run` is claimed to contain: start
marker, stage-start and step markers in declared order, completion
marker. -/
def runMarkers (path : String) (wf : Workflow) : List String :=
  ("Executing workflow: " ++ path ++ "\n") ::
    (stageMarkers wf.stages 0 ++ ["\n✓ Workflow execution completed.\n"])

theorem stepValidate_ok_iff (s : Step) :
    s.Validate = Except.ok () ↔ specStepInvariant s = true := by
  unfold Step.Validate specStepInvariant
  split_ifs with h1 h2 h3 h4 h5 <;>
    simp_all [List.isEmpty_iff_length_eq_zero, not_le, StepTypeExec, StepTypeSleep]

theorem validateSteps_ok_iff (steps : List Step) (i : Nat) :
    validateSteps steps i = Except.ok () ↔ steps.all specStepInvariant = true := by
  induction steps generalizing i with
  | nil => simp [validateSteps]
  | cons s rest ih =>
    simp only [validateSteps, List.all_cons, Bool.and_eq_true]
    cases h : s.Validate with
    | error e =>
      have hs : ¬ specStepInvariant s = true := by
        intro hinv
        have hok := (stepValidate_ok_iff s).mpr hinv
        rw [h] at hok
        exact Except.noConfusion hok
      simp [hs]
    | ok u =>
      cases u
      have hs : specStepInvariant s = true := (stepValidate_ok_iff s).mp h
      simp [hs, ih]

theorem stageValidate_ok_iff (st : Stage) :
    st.Validate = Except.ok () ↔ specStageInvariant st = true := by
  unfold Stage.Validate specStageInvariant
  split_ifs with h1 h2 <;>
    simp_all [validateSteps_ok_iff, List.isEmpty_iff_length_eq_zero]

theorem validateStages_ok_iff (stages : List Stage) (i : Nat) :
    validateStages stages i = Except.ok () ↔ stages.all specStageInvariant = true := by
  induction stages generalizing i with
  | nil => simp [validateStages]
  | cons st rest ih =>
    simp only [validateStages, List.all_cons, Bool.and_eq_true]
    cases h : st.Validate with
    | error e =>
      have hs : ¬ specStageInvariant st = true := by
        intro hinv
        have hok := (stageValidate_ok_iff st).mpr hinv
        rw [h] at hok
        exact Except.noConfusion hok
      simp [hs]
    | ok u =>
      cases u
      have hs : specStageInvariant st = true := (stageValidate_ok_iff st).mp h
      simp [hs, ih]

theorem workflowValidate_ok_iff (w : Workflow) :
    w.Validate = Except.ok () ↔ specWorkflowInvariants w = true := by
  unfold Workflow.Validate specWorkflowInvariants
  split_ifs with h1 h2 <;>
    simp_all [validateStages_ok_iff, List.isEmpty_iff_length_eq_zero]

theorem stepValidate_error_cause (s : Step) (e : String)
    (h : s.Validate = Except.error e) : baseCause e := by
  unfold Step.Validate at h
  split_ifs at h <;> injection h with h <;> subst h <;> unfold baseCause <;> tauto

theorem knownCause_wrap (p e : String) (h : knownCause e) : knownCause (p ++ e) := by
  obtain ⟨c, q, hc, rfl⟩ := h
  exact ⟨c, p ++ q, hc, (String.append_assoc p q c).symm⟩

theorem baseCause_known (e : String) (h : baseCause e) : knownCause e :=
  ⟨e, "", h, rfl⟩

theorem validateSteps_error_cause (steps : List Step) (i : Nat) (e : String)
    (h : validateSteps steps i = Except.error e) : knownCause e := by
  induction steps generalizing i e with
  | nil => simp [validateSteps] at h
  | cons s rest ih =>
    simp only [validateSteps] at h
    cases hs : s.Validate with
    | error e0 =>
      rw [hs] at h
      injection h with h
      subst h
      exact knownCause_wrap _ _ (baseCause_known _ (stepValidate_error_cause s e0 hs))
    | ok u =>
      cases u
      rw [hs] at h
      exact ih (i + 1) e h

theorem stageValidate_error_cause (st : Stage) (e : String)
    (h : st.Validate = Except.error e) : knownCause e := by
  unfold Stage.Validate at h
  split_ifs at h
  · injection h with h; subst h; exact baseCause_known _ (by unfold baseCause; tauto)
  · injection h with h; subst h; exact baseCause_known _ (by unfold baseCause; tauto)
  · exact validateSteps_error_cause st.steps 0 e h

theorem validateStages_error_cause (stages : List Stage) (i : Nat) (e : String)
    (h : validateStages stages i = Except.error e) : knownCause e := by
  induction stages generalizing i e with
  | nil => simp [validateStages] at h
  | cons st rest ih =>
    simp only [validateStages] at h
    cases hs : st.Validate with
    | error e0 =>
      rw [hs] at h
      injection h with h
      subst h
      exact knownCause_wrap _ _ (stageValidate_error_cause st e0 hs)
    | ok u =>
      cases u
      rw [hs] at h
      exact ih (i + 1) e h

theorem workflowValidate_error_cause (w : Workflow) (e : String)
    (h : w.Validate = Except.error e) : knownCause e := by
  unfold Workflow.Validate at h
  split_ifs at h
  · injection h with h; subst h; exact baseCause_known _ (by unfold baseCause; tauto)
  · injection h with h; subst h; exact baseCause_known _ (by unfold baseCause; tauto)
  · exact validateStages_error_cause w.stages 0 e h

theorem capCalls_out (l : String) (evs : List Event) :
    capCalls (Event.out l :: evs) = capCalls evs := by
  simp [capCalls, Event.isCap]

theorem capCalls_append (a b : List Event) :
    capCalls (a ++ b) = capCalls a ++ capCalls b := by
  simp [capCalls, List.filter_append]

theorem stepCalls_cons (s : Step) (rest : List Step) :
    stepCalls (s :: rest) = (stepCall s).toList ++ stepCalls rest := by
  cases h : stepCall s <;> simp [stepCalls, List.filterMap_cons, h]

theorem stepCalls_append (a b : List Step) :
    stepCalls (a ++ b) = stepCalls a ++ stepCalls b := by
  simp [stepCalls, List.filterMap_append]

theorem executeStep_ok (r : RunnerCfg) (s : Step) (h : StepOk r s) :
    (executeStep r s).2 = Except.ok () ∧
      capCalls (executeStep r s).1 = (stepCall s).toList := by
  rcases h with ⟨hT, hC⟩ | hT
  · simp [executeStep, stepCall, hT, hC, capCalls, Event.isCap]
  · have hne : s.type ≠ StepTypeExec := by rw [hT]; decide
    simp [executeStep, stepCall, hT, hne, capCalls, Event.isCap, StepTypeExec, StepTypeSleep]

theorem runSteps_ok (r : RunnerCfg) (i : Nat) (n : String) (steps : List Step)
    (h : ∀ s ∈ steps, StepOk r s) (j : Nat) :
    (runSteps r i n steps j).2 = Except.ok () ∧
      capCalls (runSteps r i n steps j).1 = stepCalls steps := by
  induction steps generalizing j with
  | nil => simp [runSteps, stepCalls, capCalls]
  | cons s rest ih =>
    obtain ⟨hres, hcap⟩ := executeStep_ok r s (h s (List.mem_cons_self s rest))
    have hrest := ih (fun x hx => h x (List.mem_cons_of_mem s hx)) (j + 1)
    simp only [runSteps]
    cases hE : executeStep r s with
    | mk evs res =>
      rw [hE] at hres hcap
      simp only at hres hcap
      subst hres
      simp only
      refine ⟨hrest.1, ?_⟩
      rw [capCalls_append, capCalls_out, hcap, hrest.2, stepCalls_cons]

theorem runStages_ok (r : RunnerCfg) (stages : List Stage)
    (h : ∀ st ∈ stages, ∀ s ∈ st.steps, StepOk r s) (i : Nat) :
    (runStages r stages i).2 = Except.ok () ∧
      capCalls (runStages r stages i).1 = stepCalls (stages.flatMap Stage.steps) := by
  induction stages generalizing i with
  | nil => simp [runStages, stepCalls, capCalls]
  | cons st rest ih =>
    obtain ⟨hres, hcap⟩ :=
      runSteps_ok r i st.name st.steps (h st (List.mem_cons_self st rest)) 0
    have hrest := ih (fun x hx => h x (List.mem_cons_of_mem st hx)) (i + 1)
    simp only [runStages]
    cases hE : runSteps r i st.name st.steps 0 with
    | mk evs res =>
      rw [hE] at hres hcap
      simp only at hres hcap
      subst hres
      simp only
      refine ⟨hrest.1, ?_⟩
      rw [capCalls_append, capCalls_out, hcap, capCalls_out, hrest.2,
        List.flatMap_cons, stepCalls_append]

theorem append_merge (X C D Y E : String) (h : C ++ D = E) :
    X ++ C ++ (D ++ Y) = X ++ E ++ Y := by
  subst h
  simp [String.append_assoc]

theorem runSteps_fail (r : RunnerCfg) (i : Nat) (n : String)
    (pre : List Step) (bad : Step) (post : List Step) (msg : String)
    (hpre : ∀ s ∈ pre, StepOk r s)
    (hT : bad.type = StepTypeExec)
    (hfail : r.RunCmd bad.run = Except.error msg) (j : Nat) :
    (runSteps r i n (pre ++ bad :: post) j).2 =
        Except.error ("stage \x27" ++ n ++ "\x27, step \x27" ++ bad.name ++
          "\x27: command execution failed: " ++ msg) ∧
      capCalls (runSteps r i n (pre ++ bad :: post) j).1 =
        stepCalls pre ++ [Event.cmd bad.run] := by
  induction pre generalizing j with
  | nil =>
    have hE : executeStep r bad = ([Event.cmd bad.run],
        Except.error ("command execution failed: " ++ msg)) := by
      simp [executeStep, hT, hfail]
    simp only [List.nil_append, runSteps, hE]
    constructor
    · exact congrArg Except.error (append_merge _ _ _ _ _ rfl)
    · simp [capCalls, Event.isCap, stepCalls]
  | cons s rest ih =>
    obtain ⟨hres, hcap⟩ := executeStep_ok r s (hpre s (List.mem_cons_self s rest))
    have hrest := ih (fun x hx => hpre x (List.mem_cons_of_mem s hx)) (j + 1)
    simp only [List.cons_append, runSteps]
    cases hE : executeStep r s with
    | mk evs res =>
      rw [hE] at hres hcap
      simp only at hres hcap
      subst hres
      simp only
      simp only [List.append_eq]
      refine ⟨hrest.1, ?_⟩
      rw [capCalls_out, capCalls_append, hcap, hrest.2, stepCalls_cons,
        List.append_assoc]

theorem runStages_fail (r : RunnerCfg)
    (preSt : List Stage) (st : Stage) (postSt : List Stage)
    (preSteps : List Step) (bad : Step) (postSteps : List Step) (msg : String)
    (hpreSt : ∀ sg ∈ preSt, ∀ s ∈ sg.steps, StepOk r s)
    (hsteps : st.steps = preSteps ++ bad :: postSteps)
    (hpre : ∀ s ∈ preSteps, StepOk r s)
    (hT : bad.type = StepTypeExec)
    (hfail : r.RunCmd bad.run = Except.error msg) (i : Nat) :
    (runStages r (preSt ++ st :: postSt) i).2 =
        Except.error ("stage \x27" ++ st.name ++ "\x27, step \x27" ++ bad.name ++
          "\x27: command execution failed: " ++ msg) ∧
      capCalls (runStages r (preSt ++ st :: postSt) i).1 =
        stepCalls (preSt.flatMap Stage.steps ++ preSteps) ++ [Event.cmd bad.run] := by
  induction preSt generalizing i with
  | nil =>
    obtain ⟨hres, hcap⟩ := runSteps_fail r i st.name preSteps bad postSteps msg hpre hT hfail 0
    rw [← hsteps] at hres hcap
    simp only [List.nil_append, runStages]
    cases hE : runSteps r i st.name st.steps 0 with
    | mk evs res =>
      rw [hE] at hres hcap
      simp only at hres hcap
      subst hres
      simp only
      refine ⟨trivial, ?_⟩
      rw [capCalls_out, hcap]
      simp
  | cons sg rest ih =>
    obtain ⟨hres, hcap⟩ :=
      runSteps_ok r i sg.name sg.steps (hpreSt sg (List.mem_cons_self sg rest)) 0
    have hrest := ih (fun x hx => hpreSt x (List.mem_cons_of_mem sg hx)) (i + 1)
    simp only [List.cons_append, runStages]
    cases hE : runSteps r i sg.name sg.steps 0 with
    | mk evs res =>
      rw [hE] at hres hcap
      simp only at hres hcap
      subst hres
      simp only
      simp only [List.append_eq]
      refine ⟨hrest.1, ?_⟩
      rw [capCalls_out, capCalls_append, hcap, capCalls_out, hrest.2]
      simp [stepCalls_append, List.flatMap_cons, List.append_assoc]

theorem outLines_cons_out (l : String) (evs : List Event) :
    outLines (Event.out l :: evs) = l :: outLines evs := by
  simp [outLines]

theorem outLines_append (a b : List Event) :
    outLines (a ++ b) = outLines a ++ outLines b := by
  simp [outLines, List.filterMap_append]

theorem outLines_nil : outLines [] = [] := rfl

theorem isDryStepMarker_append_true (a b : String)
    (h : isDryStepMarker a = true) (hlen : 15 ≤ a.data.length) :
    isDryStepMarker (a ++ b) = true ∧ 15 ≤ (a ++ b).data.length := by
  refine ⟨?_, ?_⟩
  · unfold isDryStepMarker at h ⊢
    rw [String.data_append, List.take_append_of_le_length hlen]
    exact h
  · rw [String.data_append, List.length_append]
    omega

theorem isDryStepMarker_append_false (a b : String)
    (h : isDryStepMarker a = false) (hlen : 15 ≤ a.data.length) :
    isDryStepMarker (a ++ b) = false ∧ 15 ≤ (a ++ b).data.length := by
  refine ⟨?_, ?_⟩
  · unfold isDryStepMarker at h ⊢
    rw [String.data_append, List.take_append_of_le_length hlen]
    exact h
  · rw [String.data_append, List.length_append]
    omega

theorem isDryStepMarker_stepLine (a b c d : String) :
    isDryStepMarker ("[DRY-RUN] STEP " ++ a ++ "." ++ b ++ ": " ++ c ++ " (" ++ d ++ ")\n") = true := by
  have h0 : isDryStepMarker "[DRY-RUN] STEP " = true ∧
      15 ≤ ("[DRY-RUN] STEP " : String).data.length := by
    refine ⟨by decide, by decide⟩
  have h1 := isDryStepMarker_append_true _ a h0.1 h0.2
  have h2 := isDryStepMarker_append_true _ "." h1.1 h1.2
  have h3 := isDryStepMarker_append_true _ b h2.1 h2.2
  have h4 := isDryStepMarker_append_true _ ": " h3.1 h3.2
  have h5 := isDryStepMarker_append_true _ c h4.1 h4.2
  have h6 := isDryStepMarker_append_true _ " (" h5.1 h5.2
  have h7 := isDryStepMarker_append_true _ d h6.1 h6.2
  exact (isDryStepMarker_append_true _ ")\n" h7.1 h7.2).1

theorem notMarker_dryStart (p : String) :
    isDryStepMarker ("[DRY-RUN] Would execute workflow: " ++ p ++ "\n") = false := by
  have h0 : isDryStepMarker "[DRY-RUN] Would execute workflow: " = false ∧
      15 ≤ ("[DRY-RUN] Would execute workflow: " : String).data.length := by
    refine ⟨by decide, by decide⟩
  have h1 := isDryStepMarker_append_false _ p h0.1 h0.2
  exact (isDryStepMarker_append_false _ "\n" h1.1 h1.2).1

theorem notMarker_dryStage (t n : String) :
    isDryStepMarker ("\n[DRY-RUN] === STAGE " ++ t ++ ": " ++ n ++ " ===\n") = false := by
  have h0 : isDryStepMarker "\n[DRY-RUN] === STAGE " = false ∧
      15 ≤ ("\n[DRY-RUN] === STAGE " : String).data.length := by
    refine ⟨by decide, by decide⟩
  have h1 := isDryStepMarker_append_false _ t h0.1 h0.2
  have h2 := isDryStepMarker_append_false _ ": " h1.1 h1.2
  have h3 := isDryStepMarker_append_false _ n h2.1 h2.2
  exact (isDryStepMarker_append_false _ " ===\n" h3.1 h3.2).1

theorem notMarker_dryCompletedStage (t : String) :
    isDryStepMarker ("[DRY-RUN] === STAGE " ++ t ++ " COMPLETED ===\n") = false := by
  have h0 : isDryStepMarker "[DRY-RUN] === STAGE " = false ∧
      15 ≤ ("[DRY-RUN] === STAGE " : String).data.length := by
    refine ⟨by decide, by decide⟩
  have h1 := isDryStepMarker_append_false _ t h0.1 h0.2
  exact (isDryStepMarker_append_false _ " COMPLETED ===\n" h1.1 h1.2).1

theorem notMarker_wouldExec (x : String) :
    isDryStepMarker ("[DRY-RUN]   Would execute command: " ++ x ++ "\n") = false := by
  have h0 : isDryStepMarker "[DRY-RUN]   Would execute command: " = false ∧
      15 ≤ ("[DRY-RUN]   Would execute command: " : String).data.length := by
    refine ⟨by decide, by decide⟩
  have h1 := isDryStepMarker_append_false _ x h0.1 h0.2
  exact (isDryStepMarker_append_false _ "\n" h1.1 h1.2).1

theorem notMarker_wouldSleep (t : String) :
    isDryStepMarker ("[DRY-RUN]   Would sleep for " ++ t ++ " seconds\n") = false := by
  have h0 : isDryStepMarker "[DRY-RUN]   Would sleep for " = false ∧
      15 ≤ ("[DRY-RUN]   Would sleep for " : String).data.length := by
    refine ⟨by decide, by decide⟩
  have h1 := isDryStepMarker_append_false _ t h0.1 h0.2
  exact (isDryStepMarker_append_false _ " seconds\n" h1.1 h1.2).1

theorem dryStep_filter (s : Step) :
    (outLines (dryStep s)).filter isDryStepMarker = [] := by
  unfold dryStep
  split_ifs <;> simp [outLines, notMarker_wouldExec, notMarker_wouldSleep]

theorem capCalls_dryStep (s : Step) : capCalls (dryStep s) = [] := by
  unfold dryStep
  split_ifs <;> simp [capCalls, Event.isCap]

theorem drySteps_count (i : Nat) (ss : List Step) (j : Nat) :
    ((outLines (drySteps i ss j)).filter isDryStepMarker).length = ss.length := by
  induction ss generalizing j with
  | nil => simp [drySteps, outLines]
  | cons s rest ih =>
    simp only [drySteps]
    rw [outLines_cons_out, outLines_append, List.filter_cons, List.filter_append,
      dryStep_filter]
    simp [isDryStepMarker_stepLine, ih]

theorem capCalls_drySteps (i : Nat) (ss : List Step) (j : Nat) :
    capCalls (drySteps i ss j) = [] := by
  induction ss generalizing j with
  | nil => simp [drySteps, capCalls]
  | cons s rest ih =>
    simp only [drySteps]
    rw [capCalls_out, capCalls_append, capCalls_dryStep, ih]
    rfl

theorem dryStages_count (stages : List Stage) (i : Nat) :
    ((outLines (dryStages stages i)).filter isDryStepMarker).length =
      (stages.flatMap Stage.steps).length := by
  induction stages generalizing i with
  | nil => simp [dryStages, outLines]
  | cons st rest ih =>
    simp only [dryStages]
    rw [outLines_cons_out, outLines_append, outLines_cons_out, List.filter_cons,
      List.filter_append, List.filter_cons]
    simp [notMarker_dryStage, notMarker_dryCompletedStage, drySteps_count, ih,
      List.flatMap_cons, List.length_append]

theorem capCalls_dryStages (stages : List Stage) (i : Nat) :
    capCalls (dryStages stages i) = [] := by
  induction stages generalizing i with
  | nil => simp [dryStages, capCalls]
  | cons st rest ih =>
    simp only [dryStages]
    rw [capCalls_out, capCalls_append, capCalls_drySteps, capCalls_out, ih]
    rfl

theorem valid_stepOk (r : RunnerCfg) (wf : Workflow)
    (hvalid : wf.Validate = Except.ok ())
    (hcmd : ∀ argv, r.RunCmd argv = Except.ok ()) :
    ∀ st ∈ wf.stages, ∀ s ∈ st.steps, StepOk r s := by
  intro st hst s hs
  have hw := (workflowValidate_ok_iff wf).mp hvalid
  simp only [specWorkflowInvariants, Bool.and_eq_true, List.all_eq_true] at hw
  have hstage := hw.2 st hst
  simp only [specStageInvariant, Bool.and_eq_true, List.all_eq_true] at hstage
  have hstep := hstage.2 s hs
  simp only [specStepInvariant, Bool.and_eq_true, Bool.or_eq_true, beq_iff_eq] at hstep
  rcases hstep.2 with ⟨hT, _⟩ | ⟨hT, _⟩
  · exact Or.inl ⟨hT, hcmd s.run⟩
  · exact Or.inr hT

theorem run_load_fail (r : RunnerCfg) (e : String)
    (h : r.LoadWorkflow r.path = Except.error e) :
    r.Run = ([Event.out ("Executing workflow: " ++ r.path ++ "\n")], Except.error e) := by
  simp [RunnerCfg.Run, h]

theorem dryRun_load_fail (r : RunnerCfg) (e : String)
    (h : r.LoadWorkflow r.path = Except.error e) :
    r.DryRun = ([Event.out ("[DRY-RUN] Would execute workflow: " ++ r.path ++ "\n")],
      Except.error e) := by
  simp [RunnerCfg.DryRun, h]

theorem run_ok (r : RunnerCfg) (wf : Workflow)
    (hload : r.LoadWorkflow r.path = Except.ok wf)
    (hall : ∀ st ∈ wf.stages, ∀ s ∈ st.steps, StepOk r s) :
    (r.Run).2 = Except.ok () ∧ capCalls (r.Run).1 = stepCalls (wfSteps wf) := by
  obtain ⟨hres, hcap⟩ := runStages_ok r wf.stages hall 0
  simp only [RunnerCfg.Run, hload]
  cases hE : runStages r wf.stages 0 with
  | mk evs res =>
    rw [hE] at hres hcap
    simp only at hres hcap
    subst hres
    simp only
    refine ⟨trivial, ?_⟩
    rw [capCalls_append, capCalls_out, hcap]
    simp [capCalls, Event.isCap, wfSteps]

theorem runSteps_markers (r : RunnerCfg) (i : Nat) (n : String) (steps : List Step)
    (h : ∀ s ∈ steps, StepOk r s) (j : Nat) :
    List.Sublist (stepMarkers i steps j) (outLines (runSteps r i n steps j).1) := by
  induction steps generalizing j with
  | nil => simp [runSteps, stepMarkers, outLines]
  | cons s rest ih =>
    obtain ⟨hres, _⟩ := executeStep_ok r s (h s (List.mem_cons_self s rest))
    have hrest := ih (fun x hx => h x (List.mem_cons_of_mem s hx)) (j + 1)
    simp only [runSteps, stepMarkers]
    cases hE : executeStep r s with
    | mk evs res =>
      rw [hE] at hres
      simp only at hres
      subst hres
      simp only
      rw [List.cons_append, outLines_cons_out, outLines_append]
      refine List.Sublist.cons₂ _ ?_
      have := List.Sublist.append (List.nil_sublist (outLines evs)) hrest
      simpa using this

theorem runStages_markers (r : RunnerCfg) (stages : List Stage)
    (h : ∀ st ∈ stages, ∀ s ∈ st.steps, StepOk r s) (i : Nat) :
    List.Sublist (stageMarkers stages i) (outLines (runStages r stages i).1) := by
  induction stages generalizing i with
  | nil => simp [runStages, stageMarkers, outLines]
  | cons st rest ih =>
    obtain ⟨hres, _⟩ :=
      runSteps_ok r i st.name st.steps (h st (List.mem_cons_self st rest)) 0
    have hsm := runSteps_markers r i st.name st.steps (h st (List.mem_cons_self st rest)) 0
    have hrest := ih (fun x hx => h x (List.mem_cons_of_mem st hx)) (i + 1)
    simp only [runStages, stageMarkers]
    cases hE : runSteps r i st.name st.steps 0 with
    | mk evs res =>
      rw [hE] at hres
      rw [hE] at hsm
      simp only at hres hsm
      subst hres
      simp only
      rw [List.cons_append, outLines_cons_out, outLines_append, outLines_cons_out]
      refine List.Sublist.cons₂ _ ?_
      exact List.Sublist.append hsm (List.Sublist.cons _ hrest)

theorem run_markers (r : RunnerCfg) (wf : Workflow)
    (hload : r.LoadWorkflow r.path = Except.ok wf)
    (hall : ∀ st ∈ wf.stages, ∀ s ∈ st.steps, StepOk r s) :
    List.Sublist (runMarkers r.path wf) (outLines (r.Run).1) := by
  obtain ⟨hres, _⟩ := runStages_ok r wf.stages hall 0
  have hm := runStages_markers r wf.stages hall 0
  simp only [RunnerCfg.Run, hload]
  cases hE : runStages r wf.stages 0 with
  | mk evs res =>
    rw [hE] at hres
    rw [hE] at hm
    simp only at hres hm
    subst hres
    simp only [runMarkers]
    rw [List.cons_append, outLines_cons_out, outLines_append]
    refine List.Sublist.cons₂ _ ?_
    refine List.Sublist.append hm ?_
    simp [outLines]

/-- The compile step of the spec's end-to-end example. -/
def exCompileStep : Step := { name := "compile", type := StepTypeExec, run := ["go", "build"] }

/-- The pause step of the spec's end-to-end example. -/
def exPauseStep : Step := { name := "pause", type := StepTypeSleep, seconds := 2 }

/-- The unit-test step of the spec's end-to-end example. -/
def exUnitStep : Step := { name := "unit", type := StepTypeExec, run := ["go", "test"] }

/-- The build stage of the spec's end-to-end example. -/
def exBuildStage : Stage := { name := "build", steps := [exCompileStep, exPauseStep] }

/-- The test stage of the spec's end-to-end example. -/
def exTestStage : Stage := { name := "test", steps := [exUnitStep] }

/-- The spec's end-to-end example workflow: stage build (exec go build,
then sleep 2), stage test (exec go test). -/
def exWf : Workflow := { name := "example", stages := [exBuildStage, exTestStage] }

/-- A runner whose loader returns the example workflow and whose
commands all succeed. -/
def exRunner : RunnerCfg :=
  { path := "workflow.yml"
    LoadWorkflow := fun _ => Except.ok exWf
    RunCmd := fun _ => Except.ok () }

/-- A runner whose loader fails. -/
def loadFailRunner : RunnerCfg :=
  { path := "missing.yml"
    LoadWorkflow := fun _ => Except.error "file not found"
    RunCmd := fun _ => Except.ok () }

/-- A runner over the example workflow whose go-test command fails. -/
def cmdFailRunner : RunnerCfg :=
  { path := "workflow.yml"
    LoadWorkflow := fun _ => Except.ok exWf
    RunCmd := fun argv =>
      if argv = ["go", "test"] then Except.error "exit status 1" else Except.ok () }

/-- A step with an unrecognized type tag. -/
def mysteryStep : Step := { name := "mystery", type := "teleport" }

/-- A workflow containing a step with an unrecognized type tag. -/
def unknownStepWf : Workflow :=
  { name := "w"
    stages := [ { name := "s1", steps := [mysteryStep] } ] }

/-- A runner whose loader returns the unknown-step-type workflow. -/
def unknownStepRunner : RunnerCfg :=
  { path := "wf.yml"
    LoadWorkflow := fun _ => Except.ok unknownStepWf
    RunCmd := fun _ => Except.ok () }

/-- A structurally empty workflow. -/
def badWf : Workflow := { name := "", stages := [] }

/-- C1: for every workflow the loader returns successfully (hence
validated), `Run` invokes the CommandRunner exactly once per exec step
with that step's argv and the DelayFn exactly once per sleep step with
its seconds converted to a duration, in stage-major then step-minor
declared order with no reordering; and when loading/validation fails no
capability is invoked at all. -/
theorem run_invokes_each_capability_once_in_order
    (r q : RunnerCfg) (wf : Workflow) (e : String)
    (hload : r.LoadWorkflow r.path = Except.ok wf)
    (hvalid : wf.Validate = Except.ok ())
    (hcmd : ∀ argv, r.RunCmd argv = Except.ok ())
    (hqload : q.LoadWorkflow q.path = Except.error e) :
    capCalls (r.Run).1 = stepCalls (wfSteps wf) ∧ capCalls (q.Run).1 = [] := by
  refine ⟨(run_ok r wf hload (valid_stepOk r wf hvalid hcmd)).2, ?_⟩
  rw [run_load_fail q e hqload]
  rfl

/-- Witness for C1 at the example workflow and a failing loader. -/
theorem run_invokes_each_capability_once_in_order_witness :
    capCalls (exRunner.Run).1 = stepCalls (wfSteps exWf) ∧
      capCalls (loadFailRunner.Run).1 = [] :=
  run_invokes_each_capability_once_in_order exRunner loadFailRunner exWf
    "file not found" rfl rfl (fun _ => rfl) rfl

/-- C2: if the CommandRunner invocation of an exec step fails, `Run`
aborts immediately — the capability invocations are exactly those of the
steps preceding it plus the failing invocation itself, so no later step
in any stage is invoked — and the returned error names the owning stage
and step as "stage \x27<stage>\x27, step \x27<step>\x27: command
execution failed: ...". -/
theorem run_aborts_and_names_stage_step_on_exec_failure
    (r : RunnerCfg) (wf : Workflow)
    (preSt : List Stage) (st : Stage) (postSt : List Stage)
    (preSteps : List Step) (bad : Step) (postSteps : List Step) (msg : String)
    (hload : r.LoadWorkflow r.path = Except.ok wf)
    (hstages : wf.stages = preSt ++ st :: postSt)
    (hsteps : st.steps = preSteps ++ bad :: postSteps)
    (hpreSt : ∀ sg ∈ preSt, ∀ s ∈ sg.steps, StepOk r s)
    (hpre : ∀ s ∈ preSteps, StepOk r s)
    (hT : bad.type = StepTypeExec)
    (hfail : r.RunCmd bad.run = Except.error msg) :
    (r.Run).2 = Except.error ("stage \x27" ++ st.name ++ "\x27, step \x27" ++
        bad.name ++ "\x27: command execution failed: " ++ msg) ∧
      capCalls (r.Run).1 =
        stepCalls (preSt.flatMap Stage.steps ++ preSteps) ++ [Event.cmd bad.run] := by
  obtain ⟨hres, hcap⟩ :=
    runStages_fail r preSt st postSt preSteps bad postSteps msg hpreSt hsteps hpre hT hfail 0
  rw [← hstages] at hres hcap
  simp only [RunnerCfg.Run, hload]
  cases hE : runStages r wf.stages 0 with
  | mk evs res =>
    rw [hE] at hres hcap
    simp only at hres hcap
    subst hres
    simp only
    refine ⟨trivial, ?_⟩
    rw [capCalls_out, hcap]

/-- Witness for C2: the example workflow with a failing go-test command;
the build stage runs, the failure is attributed to stage test, step
unit, and nothing after it is invoked. -/
theorem run_aborts_and_names_stage_step_on_exec_failure_witness :
    (cmdFailRunner.Run).2 = Except.error ("stage \x27" ++ "test" ++ "\x27, step \x27" ++
        "unit" ++ "\x27: command execution failed: " ++ "exit status 1") ∧
      capCalls (cmdFailRunner.Run).1 =
        stepCalls ([exBuildStage].flatMap Stage.steps ++ []) ++
          [Event.cmd ["go", "test"]] := by
  refine run_aborts_and_names_stage_step_on_exec_failure cmdFailRunner exWf
    [exBuildStage] exTestStage [] [] exUnitStep []
    "exit status 1" rfl rfl rfl ?_ ?_ rfl rfl
  · intro sg hsg s hs
    simp only [List.mem_singleton] at hsg
    subst hsg
    simp only [exBuildStage, List.mem_cons, List.mem_singleton,
      List.not_mem_nil, or_false] at hs
    rcases hs with rfl | rfl
    · exact Or.inl ⟨rfl, rfl⟩
    · exact Or.inr rfl
  · intro s hs
    cases hs

/-- C3: `Workflow.Validate` accepts a workflow exactly when all the
spec's structural invariants hold, and every rejection's root cause is
one of the eight ValidationError causes. -/
theorem validate_accepts_iff_invariants (wf : Workflow) :
    (wf.Validate = Except.ok () ↔ specWorkflowInvariants wf = true) ∧
      ∀ e, wf.Validate = Except.error e → knownCause e := by
  exact ⟨workflowValidate_ok_iff wf, fun e he => workflowValidate_error_cause wf e he⟩

/-- Witness for C3 at the empty workflow, whose rejection cause is the
missing workflow name. -/
theorem validate_accepts_iff_invariants_witness :
    (badWf.Validate = Except.ok () ↔ specWorkflowInvariants badWf = true) ∧
      knownCause "workflow name is required" :=
  ⟨(validate_accepts_iff_invariants badWf).1,
    (validate_accepts_iff_invariants badWf).2 "workflow name is required" rfl⟩

/-- C4: `DryRun` never invokes the CommandRunner or DelayFn regardless
of workflow content, emits exactly one step-marker trace line per step,
and returns an error exactly when the loader fails, propagating that
error unchanged. -/
theorem dryRun_pure_one_marker_per_step_error_iff_load
    (r q : RunnerCfg) (wf : Workflow) (e : String)
    (hload : r.LoadWorkflow r.path = Except.ok wf)
    (hqload : q.LoadWorkflow q.path = Except.error e) :
    capCalls (r.DryRun).1 = [] ∧ (r.DryRun).2 = Except.ok () ∧
      dryStepMarkerCount (r.DryRun).1 = totalSteps wf ∧
      capCalls (q.DryRun).1 = [] ∧ (q.DryRun).2 = Except.error e := by
  have hdr : r.DryRun =
      ((Event.out ("[DRY-RUN] Would execute workflow: " ++ r.path ++ "\n") ::
          dryStages wf.stages 0) ++
        [Event.out "\n[DRY-RUN] ✓ Workflow simulation completed.\n"],
        Except.ok ()) := by
    simp [RunnerCfg.DryRun, hload]
  have hq := dryRun_load_fail q e hqload
  have hc : isDryStepMarker "\n[DRY-RUN] ✓ Workflow simulation completed.\n" = false := by
    decide
  refine ⟨?_, ?_, ?_, ?_, ?_⟩
  · rw [hdr]
    simp only
    rw [capCalls_append, capCalls_out, capCalls_dryStages]
    rfl
  · rw [hdr]
  · rw [hdr]
    simp only [dryStepMarkerCount]
    rw [outLines_append, outLines_cons_out, List.filter_append, List.filter_cons]
    simp [notMarker_dryStart, hc, dryStages_count, totalSteps, wfSteps,
      outLines_cons_out, outLines_nil]
  · rw [hq]
    rfl
  · rw [hq]

/-- Witness for C4 at the example workflow (three steps) and a failing
loader. -/
theorem dryRun_pure_one_marker_per_step_error_iff_load_witness :
    capCalls (exRunner.DryRun).1 = [] ∧ (exRunner.DryRun).2 = Except.ok () ∧
      dryStepMarkerCount (exRunner.DryRun).1 = totalSteps exWf ∧
      capCalls (loadFailRunner.DryRun).1 = [] ∧
      (loadFailRunner.DryRun).2 = Except.error "file not found" :=
  dryRun_pure_one_marker_per_step_error_iff_load exRunner loadFailRunner exWf
    "file not found" rfl rfl

theorem validateSteps_first_err (pre : List Step) (sp : Step) (post : List Step)
    (f : String) (hpre : ∀ x ∈ pre, x.Validate = Except.ok ())
    (hf : sp.Validate = Except.error f) (i : Nat) :
    validateSteps (pre ++ sp :: post) i =
      Except.error ("step " ++ toString (i + pre.length) ++ " (" ++ sp.name ++ "): " ++ f) := by
  induction pre generalizing i with
  | nil =>
    simp only [List.nil_append, validateSteps, hf, List.length_nil, Nat.add_zero]
  | cons x rest ih =>
    have hx := hpre x (List.mem_cons_self x rest)
    simp only [List.cons_append, validateSteps, hx, List.append_eq]
    rw [ih (fun y hy => hpre y (List.mem_cons_of_mem x hy)) (i + 1),
      show i + 1 + rest.length = i + (x :: rest).length from by
        simp only [List.length_cons]
        omega]

theorem stageValidate_first_err (stg : Stage) (pre : List Step) (sp : Step)
    (post : List Step) (f : String)
    (h1 : stg.name ≠ "") (h2 : stg.steps = pre ++ sp :: post)
    (h3 : ∀ x ∈ pre, x.Validate = Except.ok ())
    (h4 : sp.Validate = Except.error f) :
    stg.Validate =
      Except.error ("step " ++ toString pre.length ++ " (" ++ sp.name ++ "): " ++ f) := by
  unfold Stage.Validate
  rw [h2, if_neg h1, if_neg (by simp), validateSteps_first_err pre sp post f h3 h4 0]
  simp only [Nat.zero_add]

theorem validateStages_first_err (pre : List Stage) (st : Stage) (post : List Stage)
    (e : String) (hpre : ∀ x ∈ pre, x.Validate = Except.ok ())
    (he : st.Validate = Except.error e) (i : Nat) :
    validateStages (pre ++ st :: post) i =
      Except.error ("stage " ++ toString (i + pre.length) ++ " (" ++ st.name ++ "): " ++ e) := by
  induction pre generalizing i with
  | nil =>
    simp only [List.nil_append, validateStages, he, List.length_nil, Nat.add_zero]
  | cons x rest ih =>
    have hx := hpre x (List.mem_cons_self x rest)
    simp only [List.cons_append, validateStages, hx, List.append_eq]
    rw [ih (fun y hy => hpre y (List.mem_cons_of_mem x hy)) (i + 1),
      show i + 1 + rest.length = i + (x :: rest).length from by
        simp only [List.length_cons]
        omega]

theorem workflowValidate_first_err (wf : Workflow) (pre : List Stage) (st : Stage)
    (post : List Stage) (e : String)
    (h1 : wf.name ≠ "") (h2 : wf.stages = pre ++ st :: post)
    (h3 : ∀ x ∈ pre, x.Validate = Except.ok ())
    (h4 : st.Validate = Except.error e) :
    wf.Validate =
      Except.error ("stage " ++ toString pre.length ++ " (" ++ st.name ++ "): " ++ e) := by
  unfold Workflow.Validate
  rw [h2, if_neg h1, if_neg (by simp), validateStages_first_err pre st post e h3 h4 0]
  simp only [Nat.zero_add]

/-- A well-formed exec step. -/
def okStep : Step := { name := "x", type := StepTypeExec, run := ["true"] }

/-- An exec step missing its name. -/
def namelessStep : Step := { name := "", type := StepTypeExec, run := ["true"] }

/-- A well-formed stage. -/
def okStage : Stage := { name := "ok", steps := [okStep] }

/-- A stage missing its name. -/
def namelessStage : Stage := { name := "", steps := [okStep] }

/-- A workflow whose second stage is the first invalid one. -/
def wfStageErr : Workflow := { name := "w", stages := [okStage, namelessStage] }

/-- A stage whose second step is the first invalid one. -/
def stgStepErr : Stage := { name := "s", steps := [okStep, namelessStep] }

/-- C5: validation is fail-fast in declaration order: the workflow-level
name rule fires first; otherwise the returned error comes from the first
failing stage (all earlier stages validating cleanly) wrapped with its
0-based index and name, and within a stage from the first failing step
likewise, so the final message names the failing stage and step. -/
theorem validate_fail_fast_first_violation_wrapped
    (w0 wf : Workflow) (pre : List Stage) (st : Stage) (post : List Stage)
    (stg : Stage) (spre : List Step) (sp : Step) (spost : List Step) (e f : String)
    (h0 : w0.name = "")
    (h1 : wf.name ≠ "") (h2 : wf.stages = pre ++ st :: post)
    (h3 : ∀ x ∈ pre, x.Validate = Except.ok ())
    (h4 : st.Validate = Except.error e)
    (h5 : stg.name ≠ "") (h6 : stg.steps = spre ++ sp :: spost)
    (h7 : ∀ x ∈ spre, x.Validate = Except.ok ())
    (h8 : sp.Validate = Except.error f) :
    w0.Validate = Except.error "workflow name is required" ∧
      wf.Validate =
        Except.error ("stage " ++ toString pre.length ++ " (" ++ st.name ++ "): " ++ e) ∧
      stg.Validate =
        Except.error ("step " ++ toString spre.length ++ " (" ++ sp.name ++ "): " ++ f) := by
  refine ⟨?_, workflowValidate_first_err wf pre st post e h1 h2 h3 h4,
    stageValidate_first_err stg spre sp spost f h5 h6 h7 h8⟩
  unfold Workflow.Validate
  rw [if_pos h0]

/-- Witness for C5: the first violation is, respectively, the missing
workflow name, the nameless second stage (index 1), and the nameless
second step (index 1). -/
theorem validate_fail_fast_first_violation_wrapped_witness :
    badWf.Validate = Except.error "workflow name is required" ∧
      wfStageErr.Validate = Except.error "stage 1 (): stage name is required" ∧
      stgStepErr.Validate = Except.error "step 1 (): step name is required" :=
  validate_fail_fast_first_violation_wrapped badWf wfStageErr [okStage] namelessStage []
    stgStepErr [okStep] namelessStep [] "stage name is required" "step name is required"
    rfl (by decide) rfl
    (fun x hx => by rcases List.mem_singleton.mp hx with rfl; rfl) rfl
    (by decide) rfl
    (fun x hx => by rcases List.mem_singleton.mp hx with rfl; rfl) rfl

/-- C6 counterexample: a workflow whose only step has the unknown type
tag "teleport"; `DryRun` completes without error and emits no
unknown-step-type line — the step is silently skipped, so DryRun does
not treat it as an execution error. -/
theorem dryRun_unknown_step_silent_counterexample :
    (unknownStepRunner.DryRun).2 = Except.ok () ∧
      outLines (unknownStepRunner.DryRun).1 =
        ["[DRY-RUN] Would execute workflow: wf.yml\n",
         "\n[DRY-RUN] === STAGE 1: s1 ===\n",
         "[DRY-RUN] STEP 1.1: mystery (teleport)\n",
         "[DRY-RUN] === STAGE 1 COMPLETED ===\n",
         "\n[DRY-RUN] ✓ Workflow simulation completed.\n"] :=
  ⟨rfl, rfl⟩

/-- C6 amended: at execution time in `Run` (via `executeStep`) a step
whose type is neither exec nor sleep yields an "unknown step type"
execution error and no capability invocation; in `DryRun`, however, such
a step is silently skipped: it contributes its step marker but no
simulation line, and DryRun reports no error for it. -/
theorem unknown_step_type_error_in_run_silent_in_dryRun
    (r : RunnerCfg) (s : Step)
    (h1 : s.type ≠ StepTypeExec) (h2 : s.type ≠ StepTypeSleep) :
    executeStep r s = ([], Except.error ("unknown step type: " ++ s.type)) ∧
      dryStep s = [] := by
  unfold executeStep dryStep
  rw [if_neg h1, if_neg h2, if_neg h1, if_neg h2]
  exact ⟨rfl, rfl⟩

/-- Witness for the amended C6 at the teleport-typed step. -/
theorem unknown_step_type_error_in_run_silent_in_dryRun_witness :
    executeStep unknownStepRunner mysteryStep =
        ([], Except.error "unknown step type: teleport") ∧
      dryStep mysteryStep = [] :=
  unknown_step_type_error_in_run_silent_in_dryRun unknownStepRunner mysteryStep
    (by decide) (by decide)

/-- C9: `Step.Validate` inspects only the fields of the step's own
variant: an exec step with a name and a nonempty run command validates
whatever its seconds value is, and a sleep step with a name and strictly
positive seconds validates whatever its run field holds. -/
theorem stepValidate_inspects_only_variant_fields (s t : Step)
    (hs1 : s.name ≠ "") (hs2 : s.type = StepTypeExec) (hs3 : s.run ≠ [])
    (ht1 : t.name ≠ "") (ht2 : t.type = StepTypeSleep) (ht3 : 0 < t.seconds) :
    s.Validate = Except.ok () ∧ t.Validate = Except.ok () := by
  constructor
  · unfold Step.Validate
    rw [if_neg hs1, if_pos hs2, if_neg (by simpa [List.length_eq_zero] using hs3)]
  · unfold Step.Validate
    have hne : t.type ≠ StepTypeExec := by rw [ht2]; decide
    rw [if_neg ht1, if_neg hne, if_pos ht2, if_neg (by omega)]

/-- An exec step carrying a negative seconds value. -/
def execNegSecondsStep : Step :=
  { name := "e", type := StepTypeExec, run := ["x"], seconds := -7 }

/-- A sleep step carrying a junk run field. -/
def sleepWithRunStep : Step :=
  { name := "z", type := StepTypeSleep, run := ["garbage"], seconds := 1 }

/-- Witness for C9: the exec step with seconds -7 and the sleep step
with a nonempty run field both validate. -/
theorem stepValidate_inspects_only_variant_fields_witness :
    execNegSecondsStep.Validate = Except.ok () ∧
      sleepWithRunStep.Validate = Except.ok () :=
  stepValidate_inspects_only_variant_fields execNegSecondsStep sleepWithRunStep
    (by decide) rfl (by decide) (by decide) rfl (by decide)

/-- C7: on a run that completes without error the trace contains, in
order, the start marker naming the source, each stage-start marker
(1-based index and name) followed by that stage's step markers
(stage.step indices, name, type), and finally the completion marker; in
particular for the two-stage example workflow the lines "STAGE 1:
build", "STAGE 2: test" and the completion marker occur in that order. -/
theorem run_trace_markers_in_declared_order (r : RunnerCfg) (wf : Workflow)
    (hload : r.LoadWorkflow r.path = Except.ok wf)
    (hvalid : wf.Validate = Except.ok ())
    (hcmd : ∀ argv, r.RunCmd argv = Except.ok ()) :
    List.Sublist (runMarkers r.path wf) (outLines (r.Run).1) ∧
      List.Sublist ["\n=== STAGE 1: build ===\n", "\n=== STAGE 2: test ===\n",
        "\n✓ Workflow execution completed.\n"] (outLines (exRunner.Run).1) := by
  refine ⟨run_markers r wf hload (valid_stepOk r wf hvalid hcmd), ?_⟩
  decide

/-- Witness for C7 at the example workflow runner. -/
theorem run_trace_markers_in_declared_order_witness :
    List.Sublist (runMarkers "workflow.yml" exWf) (outLines (exRunner.Run).1) ∧
      List.Sublist ["\n=== STAGE 1: build ===\n", "\n=== STAGE 2: test ===\n",
        "\n✓ Workflow execution completed.\n"] (outLines (exRunner.Run).1) :=
  run_trace_markers_in_declared_order exRunner exWf rfl rfl (fun _ => rfl)

/-- C8: `Run` and `DryRun` write their start marker naming the workflow
source before invoking the loader: the start marker is always the first
trace event, and when loading fails it is the only one, the load error
being returned unchanged. -/
theorem start_marker_emitted_before_load (r q : RunnerCfg) (e : String)
    (hq : q.LoadWorkflow q.path = Except.error e) :
    (r.Run).1.head? = some (Event.out ("Executing workflow: " ++ r.path ++ "\n")) ∧
      (r.DryRun).1.head? =
        some (Event.out ("[DRY-RUN] Would execute workflow: " ++ r.path ++ "\n")) ∧
      q.Run = ([Event.out ("Executing workflow: " ++ q.path ++ "\n")], Except.error e) ∧
      q.DryRun = ([Event.out ("[DRY-RUN] Would execute workflow: " ++ q.path ++ "\n")],
        Except.error e) := by
  refine ⟨?_, ?_, run_load_fail q e hq, dryRun_load_fail q e hq⟩
  · cases hL : r.LoadWorkflow r.path with
    | error e2 =>
      rw [run_load_fail r e2 hL]
      rfl
    | ok wf =>
      simp only [RunnerCfg.Run, hL]
      cases hE : runStages r wf.stages 0 with
      | mk evs res => cases res <;> rfl
  · cases hL : r.LoadWorkflow r.path with
    | error e2 =>
      rw [dryRun_load_fail r e2 hL]
      rfl
    | ok wf =>
      simp only [RunnerCfg.DryRun, hL]
      rfl

/-- Witness for C8 at the example runner and the failing loader. -/
theorem start_marker_emitted_before_load_witness :
    (exRunner.Run).1.head? = some (Event.out "Executing workflow: workflow.yml\n") ∧
      (exRunner.DryRun).1.head? =
        some (Event.out "[DRY-RUN] Would execute workflow: workflow.yml\n") ∧
      loadFailRunner.Run = ([Event.out "Executing workflow: missing.yml\n"],
        Except.error "file not found") ∧
      loadFailRunner.DryRun =
        ([Event.out "[DRY-RUN] Would execute workflow: missing.yml\n"],
          Except.error "file not found") :=
  start_marker_emitted_before_load exRunner loadFailRunner "file not found" rfl

theorem runSteps_head_marker (r : RunnerCfg) (i : Nat) (n : String) (s : Step)
    (rest : List Step) (j : Nat) :
    ∃ tail, (runSteps r i n (s :: rest) j).1 =
      Event.out ("STEP " ++ toString (i + 1) ++ "." ++ toString (j + 1) ++ ": " ++
        s.name ++ " (" ++ s.type ++ ")\n") :: tail := by
  simp only [runSteps]
  cases executeStep r s with
  | mk evs res =>
    cases res with
    | error e => exact ⟨evs, rfl⟩
    | ok u =>
      refine ⟨evs ++ (runSteps r i n rest (j + 1)).1, ?_⟩
      simp only
      rw [List.cons_append]

theorem runStages_head_markers (r : RunnerCfg) (st : Stage) (rest : List Stage)
    (s : Step) (srest : List Step) (i : Nat) (hsteps : st.steps = s :: srest) :
    ∃ tail, (runStages r (st :: rest) i).1 =
      Event.out ("\n=== STAGE " ++ toString (i + 1) ++ ": " ++ st.name ++ " ===\n") ::
        Event.out ("STEP " ++ toString (i + 1) ++ "." ++ toString 1 ++ ": " ++
          s.name ++ " (" ++ s.type ++ ")\n") :: tail := by
  obtain ⟨tail0, htail0⟩ := runSteps_head_marker r i st.name s srest 0
  rw [← hsteps] at htail0
  simp only [runStages]
  cases hE : runSteps r i st.name st.steps 0 with
  | mk evs res =>
    rw [hE] at htail0
    simp only at htail0
    subst htail0
    cases res with
    | error e => exact ⟨tail0, rfl⟩
    | ok u =>
      refine ⟨tail0 ++ (Event.out ("=== STAGE " ++ toString (i + 1) ++
        " COMPLETED ===\n") :: (runStages r rest (i + 1)).1), ?_⟩
      simp only
      rw [List.cons_append, List.cons_append]

theorem run_take3 (r : RunnerCfg) (wf : Workflow) (st : Stage) (s : Step)
    (r1 : List Stage) (r2 : List Step)
    (hload : r.LoadWorkflow r.path = Except.ok wf)
    (h1 : wf.stages = st :: r1) (h2 : st.steps = s :: r2) :
    (r.Run).1.take 3 = [Event.out ("Executing workflow: " ++ r.path ++ "\n"),
      Event.out ("\n=== STAGE 1: " ++ st.name ++ " ===\n"),
      Event.out ("STEP 1.1: " ++ s.name ++ " (" ++ s.type ++ ")\n")] := by
  obtain ⟨tail, htail⟩ := runStages_head_markers r st r1 s r2 0 h2
  rw [← h1] at htail
  simp only [RunnerCfg.Run, hload]
  cases hE : runStages r wf.stages 0 with
  | mk evs res =>
    rw [hE] at htail
    simp only at htail
    subst htail
    cases res <;> rfl

theorem dryRun_take3 (r : RunnerCfg) (wf : Workflow) (st : Stage) (s : Step)
    (r1 : List Stage) (r2 : List Step)
    (hload : r.LoadWorkflow r.path = Except.ok wf)
    (h1 : wf.stages = st :: r1) (h2 : st.steps = s :: r2) :
    (r.DryRun).1.take 3 =
      [Event.out ("[DRY-RUN] Would execute workflow: " ++ r.path ++ "\n"),
        Event.out ("\n[DRY-RUN] === STAGE 1: " ++ st.name ++ " ===\n"),
        Event.out ("[DRY-RUN] STEP 1.1: " ++ s.name ++ " (" ++ s.type ++ ")\n")] := by
  simp only [RunnerCfg.DryRun, hload, h1, dryStages]
  rw [h2]
  simp only [drySteps]
  rfl

/-- C10: validation error messages report 0-based stage and step indices
("stage 0 (<name>)", "step 0 (<name>)" for the first stage and step),
while the trace markers of `Run` and `DryRun` number stages and steps
1-based ("STAGE 1: <name>", "STEP 1.1: <name>"). -/
theorem validation_zero_based_trace_one_based
    (wf : Workflow) (st : Stage) (rest : List Stage) (e : String)
    (stg : Stage) (s0 : Step) (srest : List Step) (f : String)
    (r : RunnerCfg) (wf2 : Workflow) (st2 : Stage) (s2 : Step)
    (r1 : List Stage) (r2 : List Step)
    (hA1 : wf.name ≠ "") (hA2 : wf.stages = st :: rest)
    (hA3 : st.Validate = Except.error e)
    (hB1 : stg.name ≠ "") (hB2 : stg.steps = s0 :: srest)
    (hB3 : s0.Validate = Except.error f)
    (hC1 : r.LoadWorkflow r.path = Except.ok wf2)
    (hC2 : wf2.stages = st2 :: r1) (hC3 : st2.steps = s2 :: r2) :
    wf.Validate = Except.error ("stage 0 (" ++ st.name ++ "): " ++ e) ∧
      stg.Validate = Except.error ("step 0 (" ++ s0.name ++ "): " ++ f) ∧
      (r.Run).1.take 3 = [Event.out ("Executing workflow: " ++ r.path ++ "\n"),
        Event.out ("\n=== STAGE 1: " ++ st2.name ++ " ===\n"),
        Event.out ("STEP 1.1: " ++ s2.name ++ " (" ++ s2.type ++ ")\n")] ∧
      (r.DryRun).1.take 3 =
        [Event.out ("[DRY-RUN] Would execute workflow: " ++ r.path ++ "\n"),
          Event.out ("\n[DRY-RUN] === STAGE 1: " ++ st2.name ++ " ===\n"),
          Event.out ("[DRY-RUN] STEP 1.1: " ++ s2.name ++ " (" ++ s2.type ++ ")\n")] := by
  refine ⟨?_, ?_, run_take3 r wf2 st2 s2 r1 r2 hC1 hC2 hC3,
    dryRun_take3 r wf2 st2 s2 r1 r2 hC1 hC2 hC3⟩
  · exact workflowValidate_first_err wf [] st rest e hA1 hA2
      (fun x hx => absurd hx (List.not_mem_nil x)) hA3
  · exact stageValidate_first_err stg [] s0 srest f hB1 hB2
      (fun x hx => absurd hx (List.not_mem_nil x)) hB3

/-- A workflow whose first stage is invalid. -/
def wfFirstStageErr : Workflow := { name := "w", stages := [namelessStage] }

/-- A stage whose first step is invalid. -/
def stgFirstStepErr : Stage := { name := "s", steps := [namelessStep] }

/-- Witness for C10: 0-based indices in the validation errors of the
first stage/step, 1-based markers at the head of the example traces. -/
theorem validation_zero_based_trace_one_based_witness :
    wfFirstStageErr.Validate = Except.error "stage 0 (): stage name is required" ∧
      stgFirstStepErr.Validate = Except.error "step 0 (): step name is required" ∧
      (exRunner.Run).1.take 3 = [Event.out "Executing workflow: workflow.yml\n",
        Event.out "\n=== STAGE 1: build ===\n",
        Event.out "STEP 1.1: compile (exec)\n"] ∧
      (exRunner.DryRun).1.take 3 =
        [Event.out "[DRY-RUN] Would execute workflow: workflow.yml\n",
          Event.out "\n[DRY-RUN] === STAGE 1: build ===\n",
          Event.out "[DRY-RUN] STEP 1.1: compile (exec)\n"] :=
  validation_zero_based_trace_one_based wfFirstStageErr namelessStage [] "stage name is required"
    stgFirstStepErr namelessStep [] "step name is required"
    exRunner exWf exBuildStage exCompileStep [exTestStage] [exPauseStep]
    (by decide) rfl rfl (by decide) rfl rfl rfl rfl rfl
